import Mathlib

/-!
# Artifex-Adapter examples: routing hooks and hub handlers

A shallow embedding of `sse/example/main.go` and `rabbit/example/main.go`.
Messages, sessions and the hub are plain values; a handler returns the message
as it stands when the handler returns, the error it returns, the sends it made
before returning and the callbacks it left scheduled. Logger calls, and the
message id and event name read only for them, are left out: they touch neither
the subject, the metadata, the hub nor the sends.
-/

namespace Artifex

/-- Modelled from the spec: the string-keyed mapping used for `Metadata` and
`RouteParam` (its library type is not part of the example sources). Entries are
kept as an association list, the first entry of a key being its value; every
value the examples store or read is a string. -/
structure Data where
  entries : List (String × String)
deriving DecidableEq, Repr

/-- Modelled from the spec: `Str(key)`, the string stored under `key`, and the
empty string when the key is absent. -/
def Data.Str (d : Data) (key : String) : String :=
  (d.entries.lookup key).getD ""

/-- Go `delete(m, key)`: no entry of `key` remains. -/
def Data.delete (d : Data) (key : String) : Data :=
  ⟨d.entries.filter (fun e => !(e.1 == key))⟩

/-- Modelled from the spec: `Set(key, value)`, which replaces the entry of `key`. -/
def Data.Set (d : Data) (key value : String) : Data :=
  ⟨(key, value) :: (d.delete key).entries⟩

/-- Go `strings.Split(s, sep)` for a one-character separator, on character lists. -/
def splitChars (sep : Char) : List Char → List (List Char)
  | [] => [[]]
  | c :: cs =>
    if c = sep then [] :: splitChars sep cs
    else
      match splitChars sep cs with
      | [] => [[c]]
      | s :: ss => (c :: s) :: ss

/-- Go `strings.Split(s, sep)` for a one-character separator. -/
def split (sep : Char) (s : String) : List String :=
  (splitChars sep s.data).map String.mk

/-- Modelled from the spec: `StringsByStr(key)`, the comma-separated string
stored under `key` as a list of strings; no list when the key is absent. -/
def Data.StringsByStr (d : Data) (key : String) : List String :=
  match d.entries.lookup key with
  | some v => split ',' v
  | none => []

abbrev Metadata := Data
abbrev RouteParam := Data

/-- The payload handed to `NewEgress`: a text or a map of fields. -/
inductive Body where
  | text (s : String)
  | fields (kv : List (String × String))
deriving DecidableEq, Repr

/-- The message of the examples (`sse.Egress`, `Artifex.Message`): the fields
the handlers read or write. -/
structure Message where
  Subject : String
  Body : Body
  Metadata : Metadata
deriving DecidableEq, Repr

/-- The value of `fmt.Errorf("not found: user_id=%v", user_ids)`. -/
inductive Error where
  | notFound (user_ids : List String)
deriving DecidableEq, Repr

/-- Modelled from the spec: the hub's mapping `identifier → Adapter`, as the
list of its registered entries (the hub type is not part of the example
sources). The first entry of an identifier is the adapter registered under it. -/
structure Hub (A : Type) where
  entries : List (String × A)

/-- The adapters registered in the hub, in traversal order. -/
def Hub.adapters {A : Type} (hub : Hub A) : List A :=
  hub.entries.map (fun e => e.2)

/-- Modelled from the spec: `Total() -> int`, the count of registered adapters. -/
def Hub.Total {A : Type} (hub : Hub A) : Nat :=
  hub.entries.length

/-- Modelled from the spec: `Unregister(identifier)`. -/
def Hub.Unregister {A : Type} (hub : Hub A) (key : String) : Hub A :=
  ⟨hub.entries.filter (fun e => !(e.1 == key))⟩

/-- Modelled from the spec: `Register(adapter)`; an identifier maps to at most
one adapter, so a duplicate identifier replaces the prior entry. -/
def Hub.Register {A : Type} (hub : Hub A) (key : String) (adp : A) : Hub A :=
  ⟨(hub.Unregister key).entries ++ [(key, adp)]⟩

/-- Modelled from the spec: `FindOne(identifier) -> (Adapter, found)`. -/
def Hub.FindByKey {A : Type} (hub : Hub A) (key : String) : Option A :=
  hub.entries.lookup key

/-- Modelled from the spec: `FindMulti(identifiers) -> (adapters, allFound)`:
the adapters registered under the identifiers, each adapter once, and whether
every identifier was found. The spec leaves open what is returned for an
identifier given twice; an identifier maps to at most one adapter, and the
adapters are taken as the collection of those found, without repetition. -/
def Hub.FindMultiByKey {A : Type} [DecidableEq A] (hub : Hub A) (keys : List String) :
    List A × Bool :=
  ((keys.filterMap hub.FindByKey).dedup, keys.all (fun k => (hub.FindByKey k).isSome))

/-- The traversal of `DoSync` over a list of adapters: `action` yields the
effects it performed on an adapter and whether to stop. -/
def doSync {A E : Type} (action : A → List E × Bool) : List A → List E
  | [] => []
  | adp :: rest =>
    let r := action adp
    if r.2 then r.1 else r.1 ++ doSync action rest

/-- Modelled from the spec: `DoSync(predicate: Adapter -> stop: bool)` iterates
the registered adapters on the current task and stops early the first time the
predicate returns true. The result lists the effects performed. -/
def Hub.DoSync {A E : Type} (hub : Hub A) (action : A → List E × Bool) : List E :=
  doSync action hub.adapters

/-- Modelled from the spec: `DoAsync(action: Adapter -> void)` snapshots the
adapter set and leaves one unit of work per adapter, run after the call
returns; the result lists these units. -/
def Hub.DoAsync {A T : Type} (hub : Hub A) (action : A → T) : List (A × T) :=
  hub.adapters.map (fun adp => (adp, action adp))

/-- Go `sync.Once`. -/
structure Once where
  done : Bool
deriving DecidableEq, Repr

/-- Go `once.Do(f)`: `f` runs on the first call only. -/
def Once.Do {σ : Type} (once : Once) (f : σ → σ) (s : σ) : Once × σ :=
  if once.done then (once, s) else (⟨true⟩, f s)

/-- A Go channel used as a gate: the number of times `close` was executed on
it. The channel is closed from the first execution on; Go panics on the second. -/
structure Chan where
  closes : Nat
deriving DecidableEq, Repr

/-- Go `close(ch)`. -/
def Chan.close (ch : Chan) : Chan :=
  ⟨ch.closes + 1⟩

/-- One segment of a compiled pattern: a literal, or a `{name}` wildcard. -/
inductive Segment where
  | literal (s : List Char)
  | wildcard (name : String)
deriving DecidableEq, Repr

/-- Modelled from the spec: a segment is a wildcard when written `{name}`, and
a literal otherwise. -/
def parseSegment (s : List Char) : Segment :=
  match s with
  | '{' :: rest =>
    if rest.getLast? = some '}' then .wildcard (String.mk rest.dropLast) else .literal s
  | _ => .literal s

/-- Modelled from the spec: a pattern is split on the delimiter into its
ordered segment matchers. -/
def compile (delimiter : Char) (pattern : String) : List Segment :=
  (splitChars delimiter pattern.data).map parseSegment

/-- Modelled from the spec: a candidate matches iff the segment counts are
equal and every position agrees (literal-equals, or a wildcard matching any
single segment, captured under its name). -/
def matchSegments : List Segment → List (List Char) → Option (List (String × String))
  | [], [] => some []
  | .literal l :: ps, t :: ts => if l = t then matchSegments ps ts else none
  | .wildcard n :: ps, t :: ts => (matchSegments ps ts).map (fun params => (n, String.mk t) :: params)
  | _, _ => none

/-- Modelled from the spec: specificity order of two patterns; at the first
position where one has a literal and the other a wildcard, the literal one is
the more specific. -/
def moreSpecific : List Segment → List Segment → Bool
  | .literal _ :: _, .wildcard _ :: _ => true
  | .wildcard _ :: _, .literal _ :: _ => false
  | _ :: ps, _ :: qs => moreSpecific ps qs
  | _, _ => false

/-- Modelled from the spec: the router (its library type is not part of the
example sources): the segment delimiter, the routing entries as full patterns
(group prefix included) in registration order, the default handlers of the
groups by group prefix, the global default handler, and the transform hook run
before matching. -/
structure Mux (H : Type) where
  delimiter : Char
  transform : Message → RouteParam → Message × Option Error
  routes : List (String × H)
  groupDefaults : List (String × H)
  defaultHandler : Option H

/-- Modelled from the spec: a router with nothing registered. -/
def Mux.empty {H : Type} (delimiter : Char) : Mux H :=
  { delimiter := delimiter
    transform := fun message _ => (message, none)
    routes := []
    groupDefaults := []
    defaultHandler := none }

/-- Modelled from the spec: `Transform(hook)` installs the hook that rewrites
the message before matching. -/
def Mux.Transform {H : Type} (mux : Mux H) (hook : Message → RouteParam → Message × Option Error) :
    Mux H :=
  { mux with transform := hook }

/-- Modelled from the spec: `Group(prefix)` on the group of prefix `parent`:
groups nest, the prefix of the child follows the prefix of its parent. -/
def Mux.Group {H : Type} (_mux : Mux H) (parent pre : String) : String :=
  parent ++ pre

/-- Modelled from the spec: `Handler(pattern, h)` on the group of prefix
`group` registers the entry of the full pattern. -/
def Mux.Handler {H : Type} (mux : Mux H) (group pattern : String) (h : H) : Mux H :=
  { mux with routes := mux.routes ++ [(group ++ pattern, h)] }

/-- Modelled from the spec: `SetDefaultHandler(h)` on the group of prefix
`group` declares the default handler of the group; on the root group (empty
prefix) it is the global default. -/
def Mux.SetDefaultHandler {H : Type} (mux : Mux H) (group : String) (h : H) : Mux H :=
  if group = "" then { mux with defaultHandler := some h }
  else { mux with groupDefaults := mux.groupDefaults ++ [(group, h)] }

/-- Modelled from the spec: `DefaultHandler(h)`, the name `SetDefaultHandler`
has on the rabbit mux. -/
def Mux.DefaultHandler {H : Type} (mux : Mux H) (group : String) (h : H) : Mux H :=
  mux.SetDefaultHandler group h

/-- What a subject resolves to. -/
inductive Resolution (H : Type) where
  | route (pattern : String) (h : H) (params : RouteParam)
  | groupDefault (group : String) (h : H)
  | globalDefault (h : H)
  | noRouteFound
deriving DecidableEq, Repr

/-- Modelled from the spec: the full-pattern match of a subject: the most
specific matching entry, the first registered among equally specific ones. -/
def fullMatch {H : Type} (delimiter : Char) (subject : String) :
    List (String × H) → Option (List Segment × String × H × List (String × String))
  | [] => none
  | (pattern, h) :: rest =>
    let segs := compile delimiter pattern
    match matchSegments segs (splitChars delimiter subject.data), fullMatch delimiter subject rest with
    | some params, some later =>
      if moreSpecific later.1 segs then some later else some (segs, pattern, h, params)
    | some params, none => some (segs, pattern, h, params)
    | none, later => later

/-- Modelled from the spec: the nearest enclosing group default handler: of
the groups whose prefix the subject starts with, the one of the longest prefix. -/
def nearestGroupDefault {H : Type} (subject : String) : List (String × H) → Option (String × H)
  | [] => none
  | (group, h) :: rest =>
    match nearestGroupDefault subject rest with
    | some later =>
      if group.data.isPrefixOf subject.data && later.1.length ≤ group.length then some (group, h)
      else some later
    | none => if group.data.isPrefixOf subject.data then some (group, h) else none

/-- Modelled from the spec: `Match(subject)`, in the resolution order (1) full
pattern match, (2) nearest enclosing group default handler, (3) global default
handler, (4) `NoRouteFound`; a default handler gets no params. -/
def Mux.Match {H : Type} (mux : Mux H) (subject : String) : Resolution H :=
  match fullMatch mux.delimiter subject mux.routes with
  | some (_, pattern, h, params) => .route pattern h ⟨params⟩
  | none =>
    match nearestGroupDefault subject mux.groupDefaults with
    | some (group, h) => .groupDefault group h
    | none =>
      match mux.defaultHandler with
      | some h => .globalDefault h
      | none => .noRouteFound

/-- Modelled from the spec: the resolution of one message: the transform hook
runs first, then the subject it left is matched; an error of the hook ends the
dispatch. The result carries the message as the hook left it. -/
def Mux.Resolve {H : Type} (mux : Mux H) (message : Message) : Except Error (Message × Resolution H) :=
  match mux.transform message ⟨[]⟩ with
  | (message, some err) => let _ := message; .error err
  | (message, none) => .ok (message, mux.Match message.Subject)

end Artifex

namespace Sse
open Artifex

abbrev Egress := Message

/-- Modelled from the spec: `sse.NewEgress(subject, body)`, the message of a
subject and a body, with empty metadata. -/
def NewEgress (subject : String) (body : Body) : Egress :=
  { Subject := subject, Body := body, Metadata := ⟨[]⟩ }

/-- Modelled from the spec: `sse.NewEgressMux()`, a router of `/`-delimited
subjects with nothing registered. -/
def NewEgressMux {H : Type} : Mux H :=
  Mux.empty '/'

end Sse

namespace Rabbit
open Artifex

/-- Modelled from the spec: `rabbit.NewBodyEgressWithRoutingKey(key, body)`, a
message whose subject is the routing key. -/
def NewBodyEgressWithRoutingKey (key : String) (body : Body) : Message :=
  { Subject := key, Body := body, Metadata := ⟨[]⟩ }

/-- Modelled from the spec: `rabbit.NewEgressMux()`, a router of `.`-delimited
subjects with nothing registered. -/
def NewEgressMux {H : Type} : Mux H :=
  Mux.empty '.'

end Rabbit

namespace SseExample
open Artifex Sse

/-- The type `Session`: the decorated adapter of one stream. -/
structure Session where
  SessId : String
  UserId : String
  GameId : String
  RoomId : String
deriving DecidableEq, Repr

/-- The method `Session.Init`. -/
def Session.Init (sess : Session) (gameId roomId : String) : Session :=
  { sess with GameId := gameId, RoomId := roomId }

/-- The function `DecorateAdapter`: the session of an adapter whose identifier is `userId`;
`sessId` is the random code drawn for it. -/
def DecorateAdapter (sessId userId : String) : Session :=
  { SessId := sessId, UserId := userId, GameId := "", RoomId := "" }

/-- One message written to one session: the observable effect of `sess.Send`. -/
structure Delivery where
  sess : Session
  message : Egress
deriving DecidableEq, Repr

/-- The call `sess.Send(message)`, as the delivery it makes. -/
def Session.Send (sess : Session) (message : Egress) : Delivery :=
  ⟨sess, message⟩

/-- A callback left scheduled by a handler (`DoAsync`, `go`): the sends it
makes given what the message and the route parameters hold when it runs. -/
abbrev Callback := Egress → RouteParam → List Delivery

/-- What a handler leaves behind: the message when the handler returns, the
returned error, the sends made before returning, the callbacks scheduled. -/
structure Outcome where
  message : Egress
  err : Option Error
  sent : List Delivery
  async : List (Session × Callback)

/-- The sends of the scheduled callbacks, where `later adp` gives the message
and the route parameters as they stand when the callback of `adp` runs. -/
def runAsync (tasks : List (Session × Callback)) (later : Session → Egress × RouteParam) :
    List Delivery :=
  tasks.flatMap (fun t => t.2 (later t.1).1 (later t.1).2)

/-- The hook `transform`: the version stored in the metadata is put in front of the
subject and its entry is deleted; the hook returns nil. -/
def transform (message : Egress) (_route : RouteParam) : Egress × Option Error :=
  let version := message.Metadata.Str "version"
  if version ≠ "" then
    ({ message with
        Subject := version ++ message.Subject,
        Metadata := message.Metadata.delete "version" }, none)
  else
    (message, none)

/-- The handler `broadcast`: every registered session is sent the message, renamed to
the event `message`, from `DoAsync` callbacks. -/
def broadcast (hub : Hub Session) (message : Egress) (_route : RouteParam) : Outcome :=
  let message := { message with Subject := "message" }
  { message := message
    err := none
    sent := []
    async := hub.DoAsync (fun adp => fun (m : Egress) (_ : RouteParam) => [adp.Send m]) }

/-- The handler `Notification`: the sessions of the user ids listed in the metadata are
looked up; when the lookup reports not found the handler returns the error,
otherwise each adapter found is sent the message from its own goroutine. -/
def Notification (hub : Hub Session) (message : Egress) (_route : RouteParam) : Outcome :=
  let user_ids := message.Metadata.StringsByStr "user_id"
  let (adapters, found) := hub.FindMultiByKey user_ids
  if !found then
    { message := message, err := some (.notFound user_ids), sent := [], async := [] }
  else
    { message := message
      err := none
      sent := []
      async := adapters.map (fun adp => (adp, fun (m : Egress) (_ : RouteParam) => [adp.Send m])) }

/-- The predicate `PausedGame` hands to `DoSync`: the sends it makes on one
session and its stop result. -/
def pausedGamePredicate (gameId : String) (message : Egress) (sess : Session) :
    List Delivery × Bool :=
  if sess.GameId ≠ gameId then ([], false)
  else ([sess.Send message], false)

/-- The handler `PausedGame`: the subject is set to `message` for the synchronous
traversal and set back to the event afterwards. -/
def PausedGame (hub : Hub Session) (message : Egress) (_route : RouteParam) : Outcome :=
  let event := message.Subject
  let message := { message with Subject := "message" }
  let gameId := message.Metadata.Str "game_id"
  let sent := hub.DoSync (pausedGamePredicate gameId message)
  let message := { message with Subject := event }
  { message := message, err := none, sent := sent, async := [] }

/-- The handler `ChangedRoomMap`: `roomId` is read from the route parameters first; the
`DoAsync` callbacks compare against that copy. -/
def ChangedRoomMap (hub : Hub Session) (message : Egress) (route : RouteParam) : Outcome :=
  let roomId := route.Str "room_id"
  let message := { message with Subject := "v1/ChangedRoomMap" }
  { message := message
    err := none
    sent := []
    async := hub.DoAsync (fun adp => fun (m : Egress) (_ : RouteParam) =>
        if adp.RoomId ≠ roomId then [] else [adp.Send m]) }

/-- The handlers `NewMux` registers. -/
inductive Handler where
  | broadcast
  | Notification
  | PausedGame
  | ChangedRoomMap
deriving DecidableEq, Repr

/-- The function behind each registered handler. -/
def Handler.func : Handler → Hub Session → Egress → RouteParam → Outcome
  | .broadcast => SseExample.broadcast
  | .Notification => SseExample.Notification
  | .PausedGame => SseExample.PausedGame
  | .ChangedRoomMap => SseExample.ChangedRoomMap

/-- The function `NewMux`: the transform hook, group `v0/` with its default handler and
`Notification`, group `v1/` with `PausedGame` and `ChangedRoomMap/{room_id}`. -/
def NewMux : Mux Handler :=
  let mux : Mux Handler := Sse.NewEgressMux
  let root := mux.Transform transform
  let v0 := root.Group "" "v0/"
  let root := root.SetDefaultHandler v0 .broadcast
  let root := root.Handler v0 "Notification" .Notification
  let v1 := root.Group "" "v1/"
  let root := root.Handler v1 "PausedGame" .PausedGame
  let root := root.Handler v1 "ChangedRoomMap/{room_id}" .ChangedRoomMap
  root

/-- The module-level state the lifecycle hooks act on: the hub and the gate
channel `mqFire`. -/
structure World where
  hub : Hub Session
  mqFire : Chan

/-- What one call of the function `Lifecycle` returns sets up for a stream:
the `game_id` and `room_id` of the request and the `sync.Once` declared in that
call, both captured by the hooks it installs. -/
structure Hooks where
  gameId : String
  roomId : String
  once : Once

/-- The function `Lifecycle` returns, called for the request of one stream: it
reads `game_id` and `room_id` and declares a fresh `once`. -/
def Lifecycle (gameId roomId : String) : Hooks :=
  { gameId := gameId, roomId := roomId, once := ⟨false⟩ }

/-- The `OnOpen` hook of the stream: the session is initialised, and when the
hub holds four sessions `close(mqFire)` runs through the `once` of the hooks. -/
def Hooks.OnOpen (hooks : Hooks) (hub : Hub Session) (sess : Session) (mqFire : Chan) :
    Hooks × Session × Chan :=
  let sess := sess.Init hooks.gameId hooks.roomId
  if hub.Total == 4 then
    let r := hooks.once.Do Chan.close mqFire
    ({ hooks with once := r.1 }, sess, r.2)
  else
    (hooks, sess, mqFire)

/-- What happens to a stream: it opens (with the random session code, the
authenticated user id and the `game_id`, `room_id` of the request), or the
stream of a user id stops. -/
inductive Event where
  | opens (sessId userId gameId roomId : String)
  | stops (userId : String)
deriving DecidableEq, Repr

/-- Modelled from the spec: the part of the sse server that drives one stream
(not part of the example sources): opening decorates the adapter, calls the
function `Lifecycle` returns, runs the on-open hook and registers the session
with the hub; stopping runs the on-stop hook (which only
logs) and unregisters. `registerFirst` says whether the session is registered
before the on-open hook runs or after it. -/
def step (registerFirst : Bool) (w : World) : Event → World
  | .opens sessId userId gameId roomId =>
    let sess := DecorateAdapter sessId userId
    let hooks := Lifecycle gameId roomId
    let hubAtHook := if registerFirst then w.hub.Register userId sess else w.hub
    let r := hooks.OnOpen hubAtHook sess w.mqFire
    { hub := w.hub.Register userId r.2.1, mqFire := r.2.2 }
  | .stops userId =>
    { w with hub := w.hub.Unregister userId }

/-- The world after a sequence of events, from the start of the process (empty
hub, `mqFire` open). -/
def run (registerFirst : Bool) (events : List Event) : World :=
  events.foldl (step registerFirst) { hub := ⟨[]⟩, mqFire := ⟨0⟩ }

/-- The nine messages `fireMessage` sends, in order. -/
def fireMessage : List Egress :=
  [ NewEgress "v0/CreatedGcpVm"
      (.fields [("event", "v0/CreatedGcpVm"), ("team", "devops"), ("disk", "2T")]),
    NewEgress "v0/Hello" (.text "v0/Hello: World"),
    (let egress := NewEgress "Notification" (.text "Gcp VM closed")
     let egress := { egress with Metadata := egress.Metadata.Set "version" "v0/" }
     { egress with Metadata := egress.Metadata.Set "user_id" "1,3,5,7,9" }),
    (let egress := NewEgress "v1/PausedGame" (.fields [("x_game_id", "1"), ("event", "v1/PausedGame")])
     { egress with Metadata := egress.Metadata.Set "game_id" "1" }),
    (let egress := NewEgress "v1/PausedGame" (.fields [("x_game_id", "2"), ("event", "v1/PausedGame")])
     { egress with Metadata := egress.Metadata.Set "game_id" "2" }),
    (let egress := NewEgress "v1/PausedGame" (.fields [("x_game_id", "3"), ("event", "v1/PausedGame")])
     { egress with Metadata := egress.Metadata.Set "game_id" "3" }),
    (let egress := NewEgress "ChangedRoomMap/1" (.fields [("y_room_id", "1"), ("z_map_id", "a")])
     { egress with Metadata := egress.Metadata.Set "version" "v1/" }),
    (let egress := NewEgress "ChangedRoomMap/2" (.fields [("y_room_id", "2"), ("z_map_id", "b")])
     { egress with Metadata := egress.Metadata.Set "version" "v1/" }),
    (let egress := NewEgress "ChangedRoomMap/3" (.fields [("y_room_id", "3"), ("z_map_id", "c")])
     { egress with Metadata := egress.Metadata.Set "version" "v1/" }) ]

/-- What each message of `fireMessage` resolves to in the mux of `NewMux`. -/
def fireResolutions : List (Option (Resolution Handler)) :=
  fireMessage.map (fun message =>
    match NewMux.Resolve message with
    | .ok r => some r.2
    | .error _ => none)

end SseExample


namespace RabbitExample
open Artifex Rabbit

/-- The handlers `NewEgressMux` registers; each publishes the message to an
exchange with the subject as routing key. -/
inductive Handler where
  | publish (exchange : String)
deriving DecidableEq, Repr

/-- The function `NewEgressMux`: group `key1-` with a default handler publishing to
`test-ex1`, and the pattern `key2.{action}.Game` publishing to `test-ex2`.
The middleware of the mux (recover, logger, JSON encoding) takes no part in
routing. -/
def NewEgressMux : Mux Handler :=
  let mux : Mux Handler := Rabbit.NewEgressMux
  let key1 := mux.Group "" "key1-"
  let mux := mux.DefaultHandler key1 (.publish "test-ex1")
  let mux := mux.Handler "" "key2.{action}.Game" (.publish "test-ex2")
  mux

/-- The four messages `fireMessage` sends. -/
def fireMessage : List Message :=
  [ NewBodyEgressWithRoutingKey "key1-hello"
      (.fields [("detail", "hello everyone!"), ("sender", "Fluffy Bunny"),
        ("description", "This is a friendly greeting message.")]),
    NewBodyEgressWithRoutingKey "key1-world"
      (.fields [("detail", "Beautiful World"), ("sender", "Sneaky Cat"),
        ("description", "This is another cheerful greeting.")]),
    NewBodyEgressWithRoutingKey "key2.Created.Game"
      (.fields [("detail", "A new game has been created!"), ("creator", "GameMaster123"),
        ("description", "This message indicates the creation of a new game.")]),
    NewBodyEgressWithRoutingKey "key2.Restarted.Game"
      (.fields [("detail", "Game restarted successfully."), ("admin", "AdminPlayer"),
        ("description", "The game has been restarted by the admin.")]) ]

/-- What each message of `fireMessage` resolves to in the mux of `NewEgressMux`. -/
def fireResolutions : List (Option (Resolution Handler)) :=
  fireMessage.map (fun message =>
    match NewEgressMux.Resolve message with
    | .ok r => some r.2
    | .error _ => none)

end RabbitExample

/-! ## Properties -/

namespace Artifex

theorem lookup_filter_ne (key : String) (l : List (String × String)) :
    (l.filter (fun e => !(e.1 == key))).lookup key = none := by
  induction l with
  | nil => rfl
  | cons e rest ih =>
    by_cases h : e.1 = key
    · have hf : (!(e.1 == key)) = false := by simp [h]
      simp only [List.filter_cons, hf]
      exact ih
    · have hf : (!(e.1 == key)) = true := by simp [h]
      have hk : (key == e.1) = false := by
        simp only [beq_eq_false_iff_ne, ne_eq]
        exact fun h2 => h h2.symm
      simp only [List.filter_cons, hf, if_true]
      cases e with
      | mk a b =>
        show List.lookup key ((a, b) :: _) = none
        rw [List.lookup_cons, hk]
        exact ih

theorem Str_delete (d : Data) (key : String) : (d.delete key).Str key = "" := by
  simp [Data.Str, Data.delete, lookup_filter_ne]

/-- The end-to-end routing scenario of the specification on the modelled
router: with the pattern "key2.{action}.Game" and a default handler on group
"key2.", the subject "key2.Created.Game" resolves to the pattern with action
"Created", "key2.Unknown" to the group default, and "key3" to no route. -/
theorem Match_group_default_scenario :
    (((Mux.empty '.' : Mux Nat).Handler "" "key2.{action}.Game" 1).SetDefaultHandler "key2." 2).Match
        "key2.Created.Game" = .route "key2.{action}.Game" 1 ⟨[("action", "Created")]⟩ ∧
    (((Mux.empty '.' : Mux Nat).Handler "" "key2.{action}.Game" 1).SetDefaultHandler "key2." 2).Match
        "key2.Unknown" = .groupDefault "key2." 2 ∧
    (((Mux.empty '.' : Mux Nat).Handler "" "key2.{action}.Game" 1).SetDefaultHandler "key2." 2).Match
        "key3" = .noRouteFound := by
  decide

theorem doSync_of_never_stop {A E : Type} (action : A → List E × Bool)
    (h : ∀ a, (action a).2 = false) (l : List A) :
    doSync action l = l.flatMap (fun a => (action a).1) := by
  induction l with
  | nil => rfl
  | cons a rest ih => simp [doSync, h a, ih]

end Artifex

namespace SseExample
open Artifex Sse

theorem transform_of_no_version (message : Egress) (route : RouteParam)
    (h : message.Metadata.Str "version" = "") : transform message route = (message, none) := by
  simp [transform, h]

theorem transform_clears_version (message : Egress) (route : RouteParam) :
    (transform message route).1.Metadata.Str "version" = "" := by
  by_cases h : message.Metadata.Str "version" = ""
  · rw [transform_of_no_version message route h]
    exact h
  · simp [transform, h, Str_delete]

/-- C1: `transform` returns nil; the subject it leaves is the metadata value
of "version" put in front of the entry subject (the entry subject itself when
"version" is absent or empty), and the metadata it leaves holds no non-empty
"version"; subject "Notification" with version "v0/" becomes "v0/Notification". -/
theorem transform_prefixes_version (message : Egress) (route : RouteParam) :
    (transform message route).2 = none ∧
    (transform message route).1.Subject = message.Metadata.Str "version" ++ message.Subject ∧
    ((message.Metadata.entries.lookup "version" = none ∨
        message.Metadata.entries.lookup "version" = some "") →
      (transform message route).1.Subject = message.Subject) ∧
    (∀ v, (transform message route).1.Metadata.entries.lookup "version" = some v → v = "") ∧
    (transform ⟨"Notification", .text "Gcp VM closed", ⟨[("version", "v0/")]⟩⟩ ⟨[]⟩).1.Subject
      = "v0/Notification" := by
  refine ⟨?_, ?_, ?_, ?_, by decide⟩
  · by_cases h : message.Metadata.Str "version" = "" <;> simp [transform, h]
  · by_cases h : message.Metadata.Str "version" = ""
    · rw [transform_of_no_version message route h, h]
      simp
    · simp [transform, h]
  · intro h
    have h0 : message.Metadata.Str "version" = "" := by
      rcases h with h | h <;> simp [Data.Str, h]
    rw [transform_of_no_version message route h0]
  · intro v hv
    have h := transform_clears_version message route
    simp [Data.Str, hv] at h
    exact h

/-- C10: `transform` is idempotent: a second application leaves the subject
and the metadata (the whole message) as the first application left them, and
returns nil again. -/
theorem transform_idempotent (message : Egress) (route route2 : RouteParam) :
    transform (transform message route).1 route2 = ((transform message route).1, none) ∧
    (transform (transform message route).1 route2).1.Subject = (transform message route).1.Subject ∧
    (transform (transform message route).1 route2).1.Metadata
      = (transform message route).1.Metadata := by
  have h := transform_of_no_version (transform message route).1 route2
    (transform_clears_version message route)
  rw [h]
  exact ⟨rfl, rfl, rfl⟩

theorem pausedGamePredicate_continues (gameId : String) (message : Egress) (sess : Session) :
    (pausedGamePredicate gameId message sess).2 = false := by
  unfold pausedGamePredicate
  split <;> rfl

theorem PausedGame_sent (hub : Hub Session) (message : Egress) (route : RouteParam) :
    (PausedGame hub message route).sent
      = (hub.adapters.filter (fun sess => sess.GameId = message.Metadata.Str "game_id")).map
          (fun sess => sess.Send { message with Subject := "message" }) := by
  simp only [PausedGame, Hub.DoSync]
  rw [doSync_of_never_stop _ (pausedGamePredicate_continues _ _)]
  induction hub.adapters with
  | nil => rfl
  | cons a rest ih =>
    by_cases h : a.GameId = message.Metadata.Str "game_id"
    · simp [List.flatMap_cons, pausedGamePredicate, h, List.filter_cons] at ih ⊢
      exact ih
    · simp [List.flatMap_cons, pausedGamePredicate, h, List.filter_cons] at ih ⊢
      exact ih

theorem Notification_eq (hub : Hub Session) (message : Egress) (route : RouteParam) :
    Notification hub message route
      = if (hub.FindMultiByKey (message.Metadata.StringsByStr "user_id")).2 = false then
          { message := message
            err := some (.notFound (message.Metadata.StringsByStr "user_id"))
            sent := []
            async := [] }
        else
          { message := message
            err := none
            sent := []
            async := (hub.FindMultiByKey (message.Metadata.StringsByStr "user_id")).1.map
              (fun adp => (adp, fun (m : Egress) (_ : RouteParam) => [adp.Send m])) } := by
  unfold Notification
  cases h : (hub.FindMultiByKey (message.Metadata.StringsByStr "user_id")).2 <;> simp [h]

/-- C3, as amended: `Notification` and `PausedGame` return with the subject
and the metadata of the message as on entry; `broadcast` and `ChangedRoomMap`
return with the metadata as on entry and the subject rewritten, to "message"
and to "v1/ChangedRoomMap". -/
theorem handlers_message_on_return (hub : Hub Session) (message : Egress) (route : RouteParam) :
    ((Notification hub message route).message.Subject = message.Subject ∧
      (Notification hub message route).message.Metadata = message.Metadata) ∧
    ((PausedGame hub message route).message.Subject = message.Subject ∧
      (PausedGame hub message route).message.Metadata = message.Metadata) ∧
    ((broadcast hub message route).message.Subject = "message" ∧
      (broadcast hub message route).message.Metadata = message.Metadata) ∧
    ((ChangedRoomMap hub message route).message.Subject = "v1/ChangedRoomMap" ∧
      (ChangedRoomMap hub message route).message.Metadata = message.Metadata) := by
  refine ⟨?_, ⟨rfl, rfl⟩, ⟨rfl, rfl⟩, ⟨rfl, rfl⟩⟩
  rw [Notification_eq]
  split <;> exact ⟨rfl, rfl⟩

/-- C3, as stated, fails: on the message "v0/Hello" and an empty hub,
`broadcast` returns with the subject "message", and on "v1/ChangedRoomMap/1"
`ChangedRoomMap` returns with the subject "v1/ChangedRoomMap". -/
theorem handlers_rewrite_subject :
    (broadcast ⟨[]⟩ (NewEgress "v0/Hello" (.text "v0/Hello: World")) ⟨[]⟩).message.Subject
        ≠ (NewEgress "v0/Hello" (.text "v0/Hello: World")).Subject ∧
    (ChangedRoomMap ⟨[]⟩ (NewEgress "v1/ChangedRoomMap/1" (.text "")) ⟨[("room_id", "1")]⟩).message.Subject
        ≠ (NewEgress "v1/ChangedRoomMap/1" (.text "")).Subject := by
  decide

/-- C4: the sessions the `DoAsync` callbacks of `ChangedRoomMap` send to are
those of the hub snapshot whose RoomId equals the room_id route parameter at
entry, one send each, whatever the message and the route parameters hold when
each callback runs (`later`); the handler itself sends nothing before returning. -/
theorem ChangedRoomMap_uses_copied_room_id (hub : Hub Session) (message : Egress)
    (route : RouteParam) (later : Session → Egress × RouteParam) :
    (ChangedRoomMap hub message route).sent = [] ∧
    (ChangedRoomMap hub message route).async.map (fun t => t.1) = hub.adapters ∧
    (runAsync (ChangedRoomMap hub message route).async later).map (fun d => d.sess)
      = hub.adapters.filter (fun sess => sess.RoomId = route.Str "room_id") ∧
    (runAsync (ChangedRoomMap hub message route).async (fun _ => (message, ⟨[]⟩))).map
        (fun d => d.sess)
      = hub.adapters.filter (fun sess => sess.RoomId = route.Str "room_id") := by
  have key : ∀ later : Session → Egress × RouteParam,
      (runAsync (ChangedRoomMap hub message route).async later).map (fun d => d.sess)
        = hub.adapters.filter (fun sess => sess.RoomId = route.Str "room_id") := by
    intro later
    simp only [ChangedRoomMap, Hub.DoAsync, runAsync]
    induction hub.adapters with
    | nil => rfl
    | cons a rest ih =>
      by_cases h : a.RoomId = route.Str "room_id"
      · simp [List.flatMap_cons, h, List.filter_cons, Session.Send] at ih ⊢
        exact ih
      · simp [List.flatMap_cons, h, List.filter_cons] at ih ⊢
        exact ih
  refine ⟨rfl, ?_, key later, key _⟩
  simp [ChangedRoomMap, Hub.DoAsync, Function.comp_def]

/-- C8: the predicate `PausedGame` hands to `DoSync` returns false for every
session; the sessions `PausedGame` sends to are those registered sessions whose
GameId equals the metadata "game_id", once per registration (exactly once
each, the registered sessions being distinct), every send carries the subject
"message", and no send is left scheduled. -/
theorem PausedGame_delivers_to_every_match (hub : Hub Session) (message : Egress)
    (route : RouteParam) :
    (∀ gameId m sess, (pausedGamePredicate gameId m sess).2 = false) ∧
    (PausedGame hub message route).sent.map (fun d => d.sess)
      = hub.adapters.filter (fun sess => sess.GameId = message.Metadata.Str "game_id") ∧
    (∀ sess, ((PausedGame hub message route).sent.map (fun d => d.sess)).count sess
      = if sess.GameId = message.Metadata.Str "game_id" then hub.adapters.count sess else 0) ∧
    (hub.adapters.Nodup → ∀ sess ∈ hub.adapters,
      ((PausedGame hub message route).sent.map (fun d => d.sess)).count sess
        = if sess.GameId = message.Metadata.Str "game_id" then 1 else 0) ∧
    (∀ d ∈ (PausedGame hub message route).sent, d.message.Subject = "message") ∧
    (PausedGame hub message route).async = [] := by
  have hsent : (PausedGame hub message route).sent.map (fun d => d.sess)
      = hub.adapters.filter (fun sess => sess.GameId = message.Metadata.Str "game_id") := by
    rw [PausedGame_sent, List.map_map]
    simp [Function.comp_def, Session.Send]
  have hcount : ∀ sess, ((PausedGame hub message route).sent.map (fun d => d.sess)).count sess
      = if sess.GameId = message.Metadata.Str "game_id" then hub.adapters.count sess else 0 := by
    intro sess
    rw [hsent]
    by_cases h : sess.GameId = message.Metadata.Str "game_id"
    · rw [List.count_filter (by simpa using h), if_pos h]
    · rw [if_neg h]
      apply List.count_eq_zero_of_not_mem
      simp [List.mem_filter, h]
  refine ⟨pausedGamePredicate_continues, hsent, hcount, ?_, ?_, rfl⟩
  · intro hnodup sess hmem
    rw [hcount sess, List.count_eq_one_of_mem hnodup hmem]
  · intro d hd
    rw [PausedGame_sent] at hd
    simp only [List.mem_map] at hd
    obtain ⟨sess, _, rfl⟩ := hd
    rfl

/-- C9: `PausedGame` returns nil with the subject of the message equal to its
value on entry, and every send made during the call carried the subject
"message". -/
theorem PausedGame_restores_subject (hub : Hub Session) (message : Egress)
    (route : RouteParam) :
    (PausedGame hub message route).err = none ∧
    (PausedGame hub message route).message.Subject = message.Subject ∧
    (PausedGame hub message route).message = message ∧
    (∀ d ∈ (PausedGame hub message route).sent, d.message.Subject = "message") := by
  refine ⟨rfl, rfl, rfl, ?_⟩
  intro d hd
  rw [PausedGame_sent] at hd
  simp only [List.mem_map] at hd
  obtain ⟨sess, _, rfl⟩ := hd
  rfl

/-- C2, on the code: sessions 1 to 5 open, sessions 5 and 4 stop, sessions 6
and 7 open. Whether a session is registered before or after its on-open hook
runs, two of the hooks find four sessions in the hub, each with the fresh
`once` of its own `Lifecycle` call, and `close(mqFire)` is executed twice. -/
theorem mqFire_closed_twice :
    (run true [.opens "a" "1" "g" "r", .opens "b" "2" "g" "r", .opens "c" "3" "g" "r",
        .opens "d" "4" "g" "r", .opens "e" "5" "g" "r", .stops "5", .stops "4",
        .opens "f" "6" "g" "r", .opens "h" "7" "g" "r"]).mqFire.closes = 2 ∧
    (run false [.opens "a" "1" "g" "r", .opens "b" "2" "g" "r", .opens "c" "3" "g" "r",
        .opens "d" "4" "g" "r", .opens "e" "5" "g" "r", .stops "5", .stops "4",
        .opens "f" "6" "g" "r", .opens "h" "7" "g" "r"]).mqFire.closes = 2 := by
  decide

/-- C6: each of the nine messages of `fireMessage`, transformed and matched
against the routes of `NewMux`, resolves to its handler and none to
NoRouteFound: the `v0/` group default (broadcast) for "v0/CreatedGcpVm" and
"v0/Hello", `Notification`, `PausedGame` three times, and `ChangedRoomMap` with
room_id "1", "2" and "3". -/
theorem sse_fireMessage_routes :
    fireResolutions =
      [ some (.groupDefault "v0/" .broadcast),
        some (.groupDefault "v0/" .broadcast),
        some (.route "v0/Notification" .Notification ⟨[]⟩),
        some (.route "v1/PausedGame" .PausedGame ⟨[]⟩),
        some (.route "v1/PausedGame" .PausedGame ⟨[]⟩),
        some (.route "v1/PausedGame" .PausedGame ⟨[]⟩),
        some (.route "v1/ChangedRoomMap/{room_id}" .ChangedRoomMap ⟨[("room_id", "1")]⟩),
        some (.route "v1/ChangedRoomMap/{room_id}" .ChangedRoomMap ⟨[("room_id", "2")]⟩),
        some (.route "v1/ChangedRoomMap/{room_id}" .ChangedRoomMap ⟨[("room_id", "3")]⟩) ] := by
  decide

end SseExample

namespace RabbitExample
open Artifex Rabbit

/-- C7: each of the four messages of `fireMessage` resolves to a handler in
the mux of `NewEgressMux`: "key1-hello" and "key1-world" to the default handler
of group "key1-", with no params, and "key2.Created.Game" and
"key2.Restarted.Game" to the handler of "key2.{action}.Game" with action
"Created" and "Restarted". -/
theorem rabbit_fireMessage_routes :
    fireResolutions =
      [ some (.groupDefault "key1-" (.publish "test-ex1")),
        some (.groupDefault "key1-" (.publish "test-ex1")),
        some (.route "key2.{action}.Game" (.publish "test-ex2") ⟨[("action", "Created")]⟩),
        some (.route "key2.{action}.Game" (.publish "test-ex2") ⟨[("action", "Restarted")]⟩) ] := by
  decide

end RabbitExample
